import Mathlib

/-!
Shallow embedding of the InternetMonitor agent (src/agent/main.go).

The agent exposes a `/status` HTTP endpoint: on each request it probes
connectivity (`checkConnectivity`), reports the last known download
speed, and — if online — fires an asynchronous throughput measurement
(`measureDownloadSpeedAsync`) guarded by a single-flight flag and a
30-second cooldown.  Completed measurements go through
`updateLastSpeed`, which de-duplicates consecutive zero rows before
inserting into the `history` table.

Modelling conventions:
- `float64` values (speeds, latencies, durations) are modelled as `ℚ`;
  the arithmetic appearing in the claims (products, exact divisions by
  powers of ten at representable values) is exact in both.
- wall-clock instants are `Nat`; Go's zero `time.Time` (never measured)
  is `Option.none`, so `time.Since(zero) ≥ cooldown` always holds,
  matching the huge elapsed time Go computes there.
- the SQLite sink is a list of rows; a `Bool` argument says whether the
  prepare/insert succeeds (`history` holds only durably written rows,
  `forwarded` every row handed to the sink).
-/

/-- Go constant `Version = "1.1.0"` (main.go line 17). -/
def Version : String := "1.1.0"

/-- Go struct `Status` (main.go lines 19–25). -/
structure Status where
  online : Bool
  latencyMs : ℚ
  timestamp : Nat
  downloadSpeedMbps : ℚ
  version : String
deriving DecidableEq, Repr

/-- Go struct `Config` (main.go lines 27–30). -/
structure Config where
  latencyThresholdMs : ℚ
  degradedSpeedMbps : ℚ
deriving DecidableEq, Repr

/-- The possible shapes of the configuration file as seen by
`loadConfig`: the file may be unreadable (`os.ReadFile` error), readable
but not valid JSON (`json.Unmarshal` error), or valid JSON in which each
of the two settings is present with a numeric value or absent.  Go's
`json.Unmarshal` leaves absent fields at their zero value. -/
inductive ConfigFile where
  | missing
  | malformed
  | parsed (latencyThresholdMs : Option ℚ) (degradedSpeedMbps : Option ℚ)
deriving DecidableEq, Repr

/-- `loadConfig` (main.go lines 50–62): on read error or unmarshal error
return `{150, 10}`; otherwise return the unmarshalled struct, in which a
field the JSON did not set keeps Go's zero value `0`. -/
def loadConfig : ConfigFile → Config
  | .missing => ⟨150, 10⟩
  | .malformed => ⟨150, 10⟩
  | .parsed l d => ⟨l.getD 0, d.getD 0⟩

/-- Outcome of the single `net.DialTimeout("tcp", "1.1.1.1:53", 2s)`
attempt in `checkConnectivity`: failure (timeout, refusal, DNS error —
one collapsed case, `err != nil`) or success after `elapsedSec` seconds
of wall time. -/
inductive DialResult where
  | failure
  | success (elapsedSec : ℚ)
deriving DecidableEq, Repr

/-- `checkConnectivity` (main.go lines 64–82).  On dial error: zero-value
`Status` except `Online=false`, `Timestamp=now`, `Version`.  On success:
`LatencyMs = time.Since(start).Seconds() * 1000`, `Online=true`,
`Timestamp=now`, `Version`; `DownloadSpeedMbps` stays at its zero value. -/
def checkConnectivity (r : DialResult) (now : Nat) : Status :=
  match r with
  | .failure => { online := false, latencyMs := 0, timestamp := now,
                  downloadSpeedMbps := 0, version := Version }
  | .success elapsedSec =>
      { online := true, latencyMs := elapsedSec * 1000, timestamp := now,
        downloadSpeedMbps := 0, version := Version }

/-- One row of the `history` table, as inserted by `updateLastSpeed`
(main.go line 153): `stmt.Exec(time.Now(), true, 0, speed, Version)`. -/
structure HistoryRow where
  ts : Nat
  online : Bool
  latency : ℚ
  speed : ℚ
  version : String
deriving DecidableEq, Repr

/-- The agent's shared mutable state (main.go lines 32–48): the
`lastSpeed` / `lastRecordedSpeed` pair guarded by `speedMutex`, the
`measuring` flag and `lastMeasurementTime` guarded by `guardMutex`
(`none` models Go's zero `time.Time`, i.e. no measurement has finished
yet), plus the persistence sink: `forwarded` collects every row whose
insert was attempted, `history` only the rows durably written. -/
structure AgentState where
  lastSpeed : ℚ
  lastRecordedSpeed : ℚ
  measuring : Bool
  lastMeasurementTime : Option Nat
  forwarded : List HistoryRow
  history : List HistoryRow
deriving DecidableEq, Repr

/-- Zero-value start state of the Go process: speeds 0, not measuring,
zero `time.Time`, empty history table. -/
def initialState : AgentState :=
  { lastSpeed := 0, lastRecordedSpeed := 0, measuring := false,
    lastMeasurementTime := none, forwarded := [], history := [] }

/-- Go constant `measurementCooldown = 30 * time.Second` (main.go
line 40); time is counted in seconds. -/
def measurementCooldown : Nat := 30

/-- `updateLastSpeed` (main.go lines 131–157).  Under `speedMutex`:
set `lastSpeed` unconditionally; compute
`shouldWrite := speed != 0 || lastRecordedSpeed != 0`; if `shouldWrite`,
set `lastRecordedSpeed := speed`.  Then, outside the lock, if
`shouldWrite`, hand the row `(now, true, 0, speed, Version)` to the
sink; `dbOk` tells whether the prepare/insert succeeds (on failure the
error is only logged, nothing else changes). -/
def updateLastSpeed (speed : ℚ) (t : Nat) (dbOk : Bool) (st : AgentState) : AgentState :=
  let shouldWrite : Bool := decide (speed ≠ 0) || decide (st.lastRecordedSpeed ≠ 0)
  let st1 := { st with
               lastSpeed := speed,
               lastRecordedSpeed := if shouldWrite then speed else st.lastRecordedSpeed }
  if shouldWrite then
    if dbOk then
      { st1 with forwarded := st1.forwarded ++ [⟨t, true, 0, speed, Version⟩],
                 history := st1.history ++ [⟨t, true, 0, speed, Version⟩] }
    else
      { st1 with forwarded := st1.forwarded ++ [⟨t, true, 0, speed, Version⟩] }
  else st1

/-- Outcome of the download attempt inside the measurement goroutine
(main.go lines 104–124): `httpClient.Get` fails; or `io.Copy` fails
while reading the body; or `n` bytes are read in `elapsedSec` seconds
(the zero-duration edge case is `elapsedSec = 0`). -/
inductive FetchResult where
  | transportError
  | readError
  | success (n : Nat) (elapsedSec : ℚ)
deriving DecidableEq, Repr

/-- The speed each completion path of the measurement goroutine passes
to `updateLastSpeed`: `0` on transport error, read error, or zero
duration; otherwise `float64(n*8) / duration / 1_000_000` (main.go
lines 106–126). -/
def measuredSpeed : FetchResult → ℚ
  | .transportError => 0
  | .readError => 0
  | .success n elapsedSec =>
      if elapsedSec = 0 then 0 else ((n * 8 : ℕ) : ℚ) / elapsedSec / 1000000

/-- The deferred block of the measurement goroutine (main.go lines
96–101): under `guardMutex`, set `measuring = false` and
`lastMeasurementTime = time.Now()`. -/
def finishGuard (st : AgentState) (t : Nat) : AgentState :=
  { st with measuring := false, lastMeasurementTime := some t }

/-- The measurement goroutine body (main.go lines 95–127), laid out
path by path as in the Go source: every path — transport error, read
error, zero duration, success — calls `updateLastSpeed` and then (via
`defer`) runs `finishGuard` at completion time `t`. -/
def runMeasurement (r : FetchResult) (t : Nat) (dbOk : Bool) (st : AgentState) : AgentState :=
  match r with
  | .transportError => finishGuard (updateLastSpeed 0 t dbOk st) t
  | .readError => finishGuard (updateLastSpeed 0 t dbOk st) t
  | .success n elapsedSec =>
      if elapsedSec = 0 then
        finishGuard (updateLastSpeed 0 t dbOk st) t
      else
        finishGuard (updateLastSpeed (((n * 8 : ℕ) : ℚ) / elapsedSec / 1000000) t dbOk st) t

/-- The gate condition of `measureDownloadSpeedAsync` (main.go line 88),
evaluated under `guardMutex`:
`measuring || time.Since(lastMeasurementTime) < measurementCooldown`.
With Go's zero `time.Time` (`none`) the elapsed time is astronomically
larger than the cooldown, so the cooldown clause is false. -/
def gateBlocked (st : AgentState) (t : Nat) : Bool :=
  st.measuring ||
    (match st.lastMeasurementTime with
     | some l => decide (t - l < measurementCooldown)
     | none => false)

/-- The synchronous prefix of `measureDownloadSpeedAsync` (main.go
lines 85–93): if the gate blocks, unlock and return leaving the state
untouched; otherwise set `measuring := true` (the goroutine is spawned
afterwards). -/
def tryStartStep (t : Nat) (st : AgentState) : AgentState :=
  if gateBlocked st t then st else { st with measuring := true }

/-- `measureDownloadSpeedAsync` with its goroutine run to completion
(main.go lines 85–128): gate check, then the measurement body ending at
time `tEnd` with fetch outcome `r` and insert outcome `dbOk`. -/
def measureDownloadSpeedAsync (t tEnd : Nat) (r : FetchResult) (dbOk : Bool)
    (st : AgentState) : AgentState :=
  if gateBlocked st t then st
  else runMeasurement r tEnd dbOk { st with measuring := true }

/-- The `/status` handler (main.go lines 179–198): probe connectivity,
copy `lastSpeed` under `speedMutex.RLock` into the response, stamp
timestamp and version, send the response, and only then — if online —
call `measureDownloadSpeedAsync`.  Returns the response sent together
with the state after the triggered measurement (if any) completes. -/
def handleStatus (dial : DialResult) (now tEnd : Nat) (r : FetchResult) (dbOk : Bool)
    (st : AgentState) : Status × AgentState :=
  let s0 := checkConnectivity dial now
  let response := { s0 with
                    downloadSpeedMbps := st.lastSpeed, timestamp := now,
                    version := Version }
  (response,
   if response.online then measureDownloadSpeedAsync now tEnd r dbOk st else st)

/-- Interleaving-level events on the shared state: a call to
`measureDownloadSpeedAsync` at time `t` (its gate section), and the
completion of a running measurement goroutine at time `t`.  Separating
the two lets concurrent gate checks overlap a running body, as in the
real program. -/
inductive Event where
  | tryStart (t : Nat)
  | finish (t : Nat) (r : FetchResult) (dbOk : Bool)
deriving DecidableEq, Repr

/-- The wall-clock time at which an event occurs. -/
def etime : Event → Nat
  | .tryStart t => t
  | .finish t _ _ => t

/-- One step of the shared state.  A `finish` can only be emitted by a
running goroutine, i.e. when `measuring = true`; otherwise it cannot
occur and is a no-op. -/
def stepEvent (st : AgentState) : Event → AgentState
  | .tryStart t => tryStartStep t st
  | .finish t r dbOk => if st.measuring then runMeasurement r t dbOk st else st

/-- Run a sequence of events from a state. -/
def runEvents (st : AgentState) : List Event → AgentState
  | [] => st
  | e :: es => runEvents (stepEvent st e) es

/-- The times at which a gate check passes, i.e. a measurement body is
actually started, along a trace. -/
def startTimes (st : AgentState) : List Event → List Nat
  | [] => []
  | e :: es =>
      match e with
      | .tryStart t =>
          if gateBlocked st t then startTimes st es
          else t :: startTimes (tryStartStep t st) es
      | .finish _ _ _ => startTimes (stepEvent st e) es

/-- Fold `updateLastSpeed` over a list of speeds (fixed insert time `0`,
all inserts succeeding), as a run of completed measurements would. -/
def runUpdates (st : AgentState) : List ℚ → AgentState
  | [] => st
  | s :: ss => runUpdates (updateLastSpeed s 0 true st) ss

/-- The speed carried by the last row handed to the history sink, `0`
if no row has been forwarded yet. -/
def lastForwardedSpeed (st : AgentState) : ℚ :=
  ((st.forwarded.getLast?).map HistoryRow.speed).getD 0

/-- The failure outcomes of the measurement body: transport error, read
error, or the zero-duration edge case. -/
def failedFetch : FetchResult → Prop
  | .transportError => True
  | .readError => True
  | .success _ elapsedSec => elapsedSec = 0

section Lemmas

lemma updateLastSpeed_lastSpeed (s : ℚ) (t : Nat) (ok : Bool) (st : AgentState) :
    (updateLastSpeed s t ok st).lastSpeed = s := by
  simp only [updateLastSpeed]
  split
  · split <;> rfl
  · rfl

lemma updateLastSpeed_measuring (s : ℚ) (t : Nat) (ok : Bool) (st : AgentState) :
    (updateLastSpeed s t ok st).measuring = st.measuring := by
  simp only [updateLastSpeed]
  split
  · split <;> rfl
  · rfl

lemma updateLastSpeed_lastMeasurementTime (s : ℚ) (t : Nat) (ok : Bool) (st : AgentState) :
    (updateLastSpeed s t ok st).lastMeasurementTime = st.lastMeasurementTime := by
  simp only [updateLastSpeed]
  split
  · split <;> rfl
  · rfl

lemma runMeasurement_eq (r : FetchResult) (t : Nat) (ok : Bool) (st : AgentState) :
    runMeasurement r t ok st = finishGuard (updateLastSpeed (measuredSpeed r) t ok st) t := by
  cases r with
  | transportError => rfl
  | readError => rfl
  | success n elapsedSec =>
      by_cases hd : elapsedSec = 0
      · simp [runMeasurement, measuredSpeed, hd]
      · simp [runMeasurement, measuredSpeed, hd]

lemma runMeasurement_measuring (r : FetchResult) (t : Nat) (ok : Bool) (st : AgentState) :
    (runMeasurement r t ok st).measuring = false := by
  rw [runMeasurement_eq]; rfl

lemma runMeasurement_lastMeasurementTime (r : FetchResult) (t : Nat) (ok : Bool)
    (st : AgentState) :
    (runMeasurement r t ok st).lastMeasurementTime = some t := by
  rw [runMeasurement_eq]; rfl

lemma runMeasurement_lastSpeed (r : FetchResult) (t : Nat) (ok : Bool) (st : AgentState) :
    (runMeasurement r t ok st).lastSpeed = measuredSpeed r := by
  rw [runMeasurement_eq]
  simpa [finishGuard] using updateLastSpeed_lastSpeed (measuredSpeed r) t ok st

lemma gateBlocked_eq_false (st : AgentState) (t : Nat) (h : gateBlocked st t = false) :
    st.measuring = false ∧
      ∀ l, st.lastMeasurementTime = some l → measurementCooldown ≤ t - l := by
  unfold gateBlocked at h
  rcases Bool.or_eq_false_iff.mp h with ⟨h1, h2⟩
  refine ⟨h1, fun l hl => ?_⟩
  rw [hl] at h2
  simpa [Nat.not_lt] using h2

/-- Bookkeeping invariant for the single-flight proof: `ls` is the time
of the most recent successful gate pass, `tb` a lower bound on all
future event times.  While a body runs, its start time is below `tb`;
once it has finished, `lastMeasurementTime` lies between that start
time and `tb`. -/
def GuardInv (st : AgentState) (ls : Option Nat) (tb : Nat) : Prop :=
  (st.measuring = true → ∃ ts, ls = some ts ∧ ts ≤ tb) ∧
  (st.measuring = false → ∀ ts, ls = some ts →
    ∃ l, st.lastMeasurementTime = some l ∧ ts ≤ l ∧ l ≤ tb)

lemma GuardInv.mono {st : AgentState} {ls : Option Nat} {tb tb' : Nat}
    (h : GuardInv st ls tb) (hle : tb ≤ tb') : GuardInv st ls tb' := by
  refine ⟨fun hm => ?_, fun hm ts hts => ?_⟩
  · obtain ⟨ts, h1, h2⟩ := h.1 hm
    exact ⟨ts, h1, le_trans h2 hle⟩
  · obtain ⟨l, h1, h2, h3⟩ := h.2 hm ts hts
    exact ⟨l, h1, h2, le_trans h3 hle⟩

lemma startTimes_chain :
    ∀ (es : List Event) (st : AgentState) (ls : Option Nat) (tb : Nat),
      GuardInv st ls tb →
      (∀ e ∈ es, tb ≤ etime e) →
      List.Pairwise (fun a b => etime a ≤ etime b) es →
      List.Chain' (fun a b => a + measurementCooldown ≤ b) (ls.toList ++ startTimes st es)
  | [], _, ls, _, _, _, _ => by
      cases ls <;> simp [startTimes]
  | e :: es, st, ls, tb, hinv, hfut, hp => by
      rcases List.pairwise_cons.mp hp with ⟨hle, hp'⟩
      have htbe : tb ≤ etime e := hfut e (List.mem_cons_self e es)
      cases e with
      | tryStart t =>
          by_cases hb : gateBlocked st t = true
          · have hstep : startTimes st (Event.tryStart t :: es) = startTimes st es := by
              simp [startTimes, hb]
            rw [hstep]
            exact startTimes_chain es st ls t (hinv.mono htbe)
              (fun e' he' => hle e' he') hp'
          · have hb' : gateBlocked st t = false := by
              simpa using hb
            obtain ⟨hm, hcool⟩ := gateBlocked_eq_false st t hb'
            have hstep : startTimes st (Event.tryStart t :: es)
                = t :: startTimes { st with measuring := true } es := by
              simp [startTimes, hb', tryStartStep]
            rw [hstep]
            have hinv' : GuardInv { st with measuring := true } (some t) t := by
              refine ⟨fun _ => ⟨t, rfl, le_refl t⟩, fun hm' ts hts => ?_⟩
              simp at hm'
            have hrest := startTimes_chain es { st with measuring := true } (some t) t
              hinv' (fun e' he' => hle e' he') hp'
            cases hls : ls with
            | none => simpa using hrest
            | some ts =>
                obtain ⟨l, hlmt, hts_l, hl_tb⟩ := hinv.2 hm ts hls
                have hc := hcool l hlmt
                have hgap : ts + measurementCooldown ≤ t := by
                  have : tb ≤ t := htbe
                  omega
                simp only [Option.toList, List.cons_append, List.nil_append]
                exact List.chain'_cons.mpr ⟨hgap, by simpa using hrest⟩
      | finish t r ok =>
          have hstep : startTimes st (Event.finish t r ok :: es)
              = startTimes (stepEvent st (Event.finish t r ok)) es := by
            simp [startTimes]
          rw [hstep]
          by_cases hm : st.measuring = true
          · have hse : stepEvent st (Event.finish t r ok) = runMeasurement r t ok st := by
              simp [stepEvent, hm]
            rw [hse]
            have hinv' : GuardInv (runMeasurement r t ok st) ls t := by
              constructor
              · intro hmm
                rw [runMeasurement_measuring] at hmm
                exact absurd hmm (by simp)
              · intro _ ts hts
                obtain ⟨ts', hls', hts'⟩ := hinv.1 hm
                rw [hls'] at hts
                injection hts with hteq
                refine ⟨t, runMeasurement_lastMeasurementTime r t ok st, ?_, le_refl t⟩
                have : tb ≤ t := htbe
                omega
            exact startTimes_chain es _ ls t hinv' (fun e' he' => hle e' he') hp'
          · have hse : stepEvent st (Event.finish t r ok) = st := by
              simp [stepEvent, hm]
            rw [hse]
            exact startTimes_chain es st ls t (hinv.mono htbe)
              (fun e' he' => hle e' he') hp'

end Lemmas

/-- C1: the gate of `measureDownloadSpeedAsync` is evaluated atomically
under `guardMutex`: when `measuring` is set or the cooldown since
`lastMeasurementTime` has not elapsed, the call is a no-op leaving the
whole shared state unchanged; consequently, along any trace of calls
with nondecreasing wall-clock times, the times at which a measurement
body actually starts are pairwise at least one cooldown apart — within
one cooldown window at most one measurement body executes. -/
theorem gate_single_flight :
    (∀ (st : AgentState) (t : Nat), gateBlocked st t = true →
        stepEvent st (Event.tryStart t) = st) ∧
    ∀ (es : List Event), List.Pairwise (fun a b => etime a ≤ etime b) es →
      List.Pairwise (fun a b => a + measurementCooldown ≤ b)
        (startTimes initialState es) := by
  constructor
  · intro st t h
    simp [stepEvent, tryStartStep, h]
  · intro es hp
    have hinv : GuardInv initialState none 0 := by
      constructor
      · intro h
        simp [initialState] at h
      · intro _ ts hts
        exact absurd hts (by simp)
    have hchain := startTimes_chain es initialState none 0 hinv
      (fun e _ => Nat.zero_le (etime e)) hp
    have inst : IsTrans Nat (fun a b => a + measurementCooldown ≤ b) :=
      ⟨fun a b c h1 h2 => by omega⟩
    simp only [Option.toList, List.nil_append] at hchain
    exact (@List.chain'_iff_pairwise Nat _ inst _).mp hchain

/-- C1 witness: a blocked call (measurement in progress) is a no-op on
a concrete state, and the concrete scenario of the spec — first call
starts, the body finishes at 102, a second call 1 second later is
rejected — yields exactly one body start. -/
theorem gate_single_flight_witness :
    stepEvent { initialState with measuring := true } (Event.tryStart 5)
      = { initialState with measuring := true } ∧
    List.Pairwise (fun a b => a + measurementCooldown ≤ b)
      (startTimes initialState
        [Event.tryStart 100, Event.finish 102 .transportError true, Event.tryStart 103]) :=
  ⟨gate_single_flight.1 _ 5 (by decide), gate_single_flight.2 _ (by decide)⟩

lemma shouldWrite_true {s : ℚ} {st : AgentState}
    (h : s ≠ 0 ∨ st.lastRecordedSpeed ≠ 0) :
    (decide (s ≠ 0) || decide (st.lastRecordedSpeed ≠ 0)) = true := by
  rcases h with h | h <;> simp [h]

lemma shouldWrite_false {s : ℚ} {st : AgentState}
    (h : ¬(s ≠ 0 ∨ st.lastRecordedSpeed ≠ 0)) :
    (decide (s ≠ 0) || decide (st.lastRecordedSpeed ≠ 0)) = false := by
  push_neg at h
  simp [h.1, h.2]

/-- C2: the de-duplication rule of `updateLastSpeed`: a row is handed to
the history sink exactly when `speed != 0 || lastRecordedSpeed != 0`,
and forwarding sets `lastRecordedSpeed` to the forwarded speed;
consequently the update sequence `[5, 0, 0, 0, 7]` from the initial
state forwards exactly three rows, with speeds `5`, `0` (the first
zero), and `7`. -/
theorem dedup_rule :
    (runUpdates initialState [5, 0, 0, 0, 7]).forwarded.map HistoryRow.speed
        = [5, 0, 7] ∧
    ∀ (s : ℚ) (t : Nat) (ok : Bool) (st : AgentState),
      ((s ≠ 0 ∨ st.lastRecordedSpeed ≠ 0) →
        (updateLastSpeed s t ok st).forwarded
            = st.forwarded ++ [⟨t, true, 0, s, Version⟩] ∧
        (updateLastSpeed s t ok st).lastRecordedSpeed = s) ∧
      (¬(s ≠ 0 ∨ st.lastRecordedSpeed ≠ 0) →
        (updateLastSpeed s t ok st).forwarded = st.forwarded ∧
        (updateLastSpeed s t ok st).lastRecordedSpeed = st.lastRecordedSpeed) := by
  refine ⟨by decide, fun s t ok st => ⟨fun h => ?_, fun h => ?_⟩⟩
  · have hw := shouldWrite_true h
    cases ok <;> (simp only [updateLastSpeed]; rw [hw]; simp)
  · have hw := shouldWrite_false h
    cases ok <;> (simp only [updateLastSpeed]; rw [hw]; simp)

/-- C2 witness: updating with speed 5 from the initial state forwards
the row and records the speed. -/
theorem dedup_rule_witness :
    (updateLastSpeed 5 0 true initialState).forwarded
        = initialState.forwarded ++ [⟨0, true, 0, 5, Version⟩] ∧
    (updateLastSpeed 5 0 true initialState).lastRecordedSpeed = 5 :=
  (dedup_rule.2 5 0 true initialState).1 (by decide)

/-- C3: every completion path of the measurement body — transport
error, read error, zero duration, success — first calls
`updateLastSpeed` with the measured (possibly zero) speed and then, via
the deferred block, clears `measuring` and stamps
`lastMeasurementTime`; no path leaves `measuring` set. -/
theorem measurement_always_finishes :
    ∀ (r : FetchResult) (t : Nat) (ok : Bool) (st : AgentState),
      runMeasurement r t ok st
          = finishGuard (updateLastSpeed (measuredSpeed r) t ok st) t ∧
      (runMeasurement r t ok st).measuring = false ∧
      (runMeasurement r t ok st).lastMeasurementTime = some t ∧
      (runMeasurement r t ok st).lastSpeed = measuredSpeed r :=
  fun r t ok st =>
    ⟨runMeasurement_eq r t ok st, runMeasurement_measuring r t ok st,
     runMeasurement_lastMeasurementTime r t ok st, runMeasurement_lastSpeed r t ok st⟩

/-- C4 counterexample: when the insert fails (`dbOk = false`), nothing
is durably written, yet `lastRecordedSpeed` is updated to 5 anyway —
the code sets it under `speedMutex` before the DB is touched, so it
does not track what was last durably written. -/
theorem lastRecorded_durable_counterexample :
    (updateLastSpeed 5 0 false initialState).lastRecordedSpeed = 5 ∧
    (updateLastSpeed 5 0 false initialState).history = [] := by
  decide

lemma updateLastSpeed_lastForwarded (s : ℚ) (t : Nat) (ok : Bool) (st : AgentState)
    (h : st.lastRecordedSpeed = lastForwardedSpeed st) :
    (updateLastSpeed s t ok st).lastRecordedSpeed
        = lastForwardedSpeed (updateLastSpeed s t ok st) := by
  by_cases hw : s ≠ 0 ∨ st.lastRecordedSpeed ≠ 0
  · have hw' := shouldWrite_true hw
    cases ok <;>
      (simp only [updateLastSpeed]; rw [hw'];
       simp [lastForwardedSpeed, List.getLast?_append_cons])
  · have hw' := shouldWrite_false hw
    cases ok <;>
      (simp only [updateLastSpeed]; rw [hw']; simpa [lastForwardedSpeed] using h)

lemma stepEvent_lastForwarded (st : AgentState) (e : Event)
    (h : st.lastRecordedSpeed = lastForwardedSpeed st) :
    (stepEvent st e).lastRecordedSpeed = lastForwardedSpeed (stepEvent st e) := by
  cases e with
  | tryStart t =>
      simp only [stepEvent, tryStartStep]
      split
      · exact h
      · simpa [lastForwardedSpeed] using h
  | finish t r ok =>
      simp only [stepEvent]
      split
      · rw [runMeasurement_eq]
        simpa [finishGuard, lastForwardedSpeed] using
          updateLastSpeed_lastForwarded (measuredSpeed r) t ok st h
      · exact h

lemma runEvents_lastForwarded :
    ∀ (es : List Event) (st : AgentState),
      st.lastRecordedSpeed = lastForwardedSpeed st →
      (runEvents st es).lastRecordedSpeed = lastForwardedSpeed (runEvents st es)
  | [], _, h => h
  | e :: es, st, h =>
      runEvents_lastForwarded es (stepEvent st e) (stepEvent_lastForwarded st e h)

/-- C4 amended: after any trace of events, `lastRecordedSpeed` equals
the speed of the last row *forwarded* to the history sink (the last row
whose insert was attempted) — it is updated whenever the
de-duplication rule allows a write, even when the persistence attempt
itself fails. -/
theorem lastRecorded_tracks_forwarded :
    ∀ (es : List Event),
      (runEvents initialState es).lastRecordedSpeed
          = lastForwardedSpeed (runEvents initialState es) :=
  fun es => runEvents_lastForwarded es initialState (by decide)

/-- C5 counterexample: a configuration file that exists and parses but
contains neither setting makes `loadConfig` return Go's zero values
`{0, 0}`, not the documented defaults `{150, 10}` —
`json.Unmarshal` leaves absent fields at their zero value and the code
never checks them. -/
theorem loadConfig_missing_fields_counterexample :
    loadConfig (.parsed none none) ≠ ⟨150, 10⟩ := by decide

/-- C5 amended: `loadConfig` never fails and falls back to the defaults
`{150 ms, 10 Mbps}` exactly when the file is missing/unreadable or does
not parse as JSON; when the file parses, each absent setting is
returned as Go's zero value `0` instead of its default. -/
theorem loadConfig_defaults :
    loadConfig .missing = ⟨150, 10⟩ ∧
    loadConfig .malformed = ⟨150, 10⟩ ∧
    ∀ (l d : Option ℚ), loadConfig (.parsed l d) = ⟨l.getD 0, d.getD 0⟩ :=
  ⟨rfl, rfl, fun _ _ => rfl⟩

/-- C6: `checkConnectivity` collapses every dial failure into the
single outcome `online=false, latencyMs=0, timestamp=now` (no error is
raised), and on success returns `online=true`, `latencyMs` equal to the
elapsed wall time converted to milliseconds, and `timestamp=now`. -/
theorem checkConnectivity_outcomes :
    ∀ (now : Nat),
      checkConnectivity .failure now
          = { online := false, latencyMs := 0, timestamp := now,
              downloadSpeedMbps := 0, version := Version } ∧
      ∀ (elapsedSec : ℚ),
        checkConnectivity (.success elapsedSec) now
            = { online := true, latencyMs := elapsedSec * 1000, timestamp := now,
                downloadSpeedMbps := 0, version := Version } :=
  fun _ => ⟨rfl, fun _ => rfl⟩

/-- C7: every failed measurement run — transport error, read error, or
zero elapsed duration — records a speed of exactly 0 through
`updateLastSpeed` instead of propagating an error, and the status
response of a request is computed before and independently of the
measurement it may trigger, so no measurement failure ever surfaces in
a response. -/
theorem failures_recorded_as_zero :
    (∀ (r : FetchResult), failedFetch r →
      measuredSpeed r = 0 ∧
      ∀ (t : Nat) (ok : Bool) (st : AgentState),
        (runMeasurement r t ok st).lastSpeed = 0) ∧
    ∀ (dial : DialResult) (now tEnd : Nat) (r r' : FetchResult) (ok ok' : Bool)
      (st : AgentState),
      (handleStatus dial now tEnd r ok st).1 = (handleStatus dial now tEnd r' ok' st).1 := by
  constructor
  · intro r hr
    have hz : measuredSpeed r = 0 := by
      cases r with
      | transportError => rfl
      | readError => rfl
      | success n elapsedSec =>
          have he : elapsedSec = 0 := hr
          simp [measuredSpeed, he]
    exact ⟨hz, fun t ok st => by rw [runMeasurement_lastSpeed, hz]⟩
  · intro dial now tEnd r r' ok ok' st
    rfl

/-- C7 witness: a transport error records speed 0 on a concrete state. -/
theorem failures_recorded_as_zero_witness :
    measuredSpeed .transportError = 0 ∧
    (runMeasurement .transportError 7 true initialState).lastSpeed = 0 :=
  ⟨(failures_recorded_as_zero.1 .transportError trivial).1,
   (failures_recorded_as_zero.1 .transportError trivial).2 7 true initialState⟩

/-- C8: a successful download of `n` bytes in `elapsedSec > 0` seconds
computes the speed `n*8 / elapsedSec / 1e6` Mbps from the bytes
actually received; in particular 5,000,000 bytes in exactly 1 second
give exactly 40 Mbps. -/
theorem download_speed_formula :
    (∀ (n : ℕ) (elapsedSec : ℚ), 0 < elapsedSec →
      measuredSpeed (.success n elapsedSec) = ((n * 8 : ℕ) : ℚ) / elapsedSec / 1000000) ∧
    measuredSpeed (.success 5000000 1) = 40 := by
  constructor
  · intro n elapsedSec h
    simp [measuredSpeed, h.ne']
  · norm_num [measuredSpeed]

/-- C8 witness: the formula applied at 5,000,000 bytes in 1 second. -/
theorem download_speed_formula_witness :
    (0 : ℚ) < 1 ∧
    measuredSpeed (.success 5000000 1) = ((5000000 * 8 : ℕ) : ℚ) / 1 / 1000000 :=
  ⟨zero_lt_one, download_speed_formula.1 5000000 1 zero_lt_one⟩

/-- C9: for any speed `S ≥ 0`, `updateLastSpeed S` sets the `lastSpeed`
field unconditionally (whether or not the de-duplication rule allows a
history write), and a subsequent status request reads exactly `S` back
into `download_speed_mbps`. -/
theorem lastReading_roundtrip :
    ∀ (S : ℚ), 0 ≤ S → ∀ (t : Nat) (ok : Bool) (st : AgentState),
      (updateLastSpeed S t ok st).lastSpeed = S ∧
      ∀ (dial : DialResult) (now tEnd : Nat) (r : FetchResult) (dbOk : Bool),
        (handleStatus dial now tEnd r dbOk (updateLastSpeed S t ok st)).1.downloadSpeedMbps
          = S := by
  intro S _ t ok st
  refine ⟨updateLastSpeed_lastSpeed S t ok st, fun dial now tEnd r dbOk => ?_⟩
  show (updateLastSpeed S t ok st).lastSpeed = S
  exact updateLastSpeed_lastSpeed S t ok st

/-- C9 witness: writing speed 5 and reading it back via the status
handler. -/
theorem lastReading_roundtrip_witness :
    (updateLastSpeed 5 3 true initialState).lastSpeed = 5 ∧
    (handleStatus .failure 9 10 .transportError true
        (updateLastSpeed 5 3 true initialState)).1.downloadSpeedMbps = 5 :=
  ⟨(lastReading_roundtrip 5 (by decide) 3 true initialState).1,
   (lastReading_roundtrip 5 (by decide) 3 true initialState).2 .failure 9 10
     .transportError true⟩

lemma updateLastSpeed_history_rows (s : ℚ) (t : Nat) (ok : Bool) (st : AgentState)
    (h : ∀ row ∈ st.history, row.online = true ∧ row.latency = 0 ∧ row.version = Version) :
    ∀ row ∈ (updateLastSpeed s t ok st).history,
      row.online = true ∧ row.latency = 0 ∧ row.version = Version := by
  intro row hrow
  by_cases hw : s ≠ 0 ∨ st.lastRecordedSpeed ≠ 0
  · have hw' := shouldWrite_true hw
    cases ok with
    | false =>
        simp only [updateLastSpeed] at hrow
        rw [hw'] at hrow
        simp at hrow
        exact h row hrow
    | true =>
        simp only [updateLastSpeed] at hrow
        rw [hw'] at hrow
        simp [List.mem_append] at hrow
        rcases hrow with hrow | hrow
        · exact h row hrow
        · simp [hrow]
  · have hw' := shouldWrite_false hw
    simp only [updateLastSpeed] at hrow
    rw [hw'] at hrow
    simp at hrow
    exact h row hrow

lemma stepEvent_history_rows (st : AgentState) (e : Event)
    (h : ∀ row ∈ st.history, row.online = true ∧ row.latency = 0 ∧ row.version = Version) :
    ∀ row ∈ (stepEvent st e).history,
      row.online = true ∧ row.latency = 0 ∧ row.version = Version := by
  cases e with
  | tryStart t =>
      simp only [stepEvent, tryStartStep]
      split
      · exact h
      · simpa using h
  | finish t r ok =>
      simp only [stepEvent]
      split
      · rw [runMeasurement_eq]
        simpa [finishGuard] using updateLastSpeed_history_rows (measuredSpeed r) t ok st h
      · exact h

lemma runEvents_history_rows :
    ∀ (es : List Event) (st : AgentState),
      (∀ row ∈ st.history, row.online = true ∧ row.latency = 0 ∧ row.version = Version) →
      ∀ row ∈ (runEvents st es).history,
        row.online = true ∧ row.latency = 0 ∧ row.version = Version
  | [], _, h => h
  | e :: es, st, h =>
      runEvents_history_rows es (stepEvent st e) (stepEvent_history_rows st e h)

/-- C10: every row the agent persists carries the constant values
`online = true` and `latency = 0` (and the build `Version` string),
independent of the connectivity probe's actual outcome — only the
timestamp and the speed genuinely vary between rows. -/
theorem history_rows_constant_fields :
    ∀ (st : AgentState) (es : List Event),
      (∀ row ∈ st.history, row.online = true ∧ row.latency = 0 ∧ row.version = Version) →
      ∀ row ∈ (runEvents st es).history,
        row.online = true ∧ row.latency = 0 ∧ row.version = Version :=
  fun st es h => runEvents_history_rows es st h

/-- C10 witness: the row persisted by a failed measurement completing at
time 102 (previous recorded speed 1) has `online = true`,
`latency = 0`. -/
theorem history_rows_constant_fields_witness :
    (⟨102, true, 0, 0, Version⟩ : HistoryRow).online = true ∧
    (⟨102, true, 0, 0, Version⟩ : HistoryRow).latency = 0 ∧
    (⟨102, true, 0, 0, Version⟩ : HistoryRow).version = Version :=
  history_rows_constant_fields
    { initialState with lastRecordedSpeed := 1, measuring := true }
    [Event.finish 102 .transportError true] (by decide)
    ⟨102, true, 0, 0, Version⟩ (by decide)
